import Mathlib

/-!
# Verification of the radius-circle-map-tool geometric engine

Shallow embedding of the geometry code of `radius-circle-map-tool`
(`src/App.tsx`) and of the circle-circle intersection engine that the
repository's README documents, over exact rationals `ℚ`.

JavaScript's `Math.cos` (composed with the degree-to-radian conversion
`x * Math.PI / 180`) and `Math.sqrt` are transcendental and therefore not
computable over `ℚ`; they are abstracted as explicit function parameters
`cosd sq : ℚ → ℚ` (`cosd lat` models `Math.cos(lat * Math.PI / 180)` and
`sq x` models `Math.sqrt(x)`).  All properties proved below hold for every
choice of these parameters, except where a hypothesis such as `sq 0 = 0`
(a true fact of `Math.sqrt`) is stated explicitly.
-/

namespace RadiusMap

/-- `type Unit = 'miles' | 'km'` from `src/App.tsx`. -/
inductive Unit where
  | miles : Unit
  | km : Unit
deriving DecidableEq, Repr

/-- `interface CircleData { id; lat; lng; radius; unit }` from `src/App.tsx`. -/
structure CircleData where
  id : String
  lat : ℚ
  lng : ℚ
  radius : ℚ
  unit : Unit
deriving DecidableEq, Repr

/-- An intersection point in latitude/longitude degrees. -/
structure Point where
  lat : ℚ
  lng : ℚ
deriving DecidableEq, Repr

/-- Unit conversion, from `src/App.tsx`
`circle.unit === 'miles' ? circle.radius * 1609.34 : circle.radius * 1000`. -/
def toMeters (radius : ℚ) (unit : Unit) : ℚ :=
  match unit with
  | .miles => radius * 1609.34
  | .km => radius * 1000

/-- The radius of a circle converted to meters. -/
def radiusMeters (c : CircleData) : ℚ :=
  toMeters c.radius c.unit

/-- Modelled from the spec: the local planar projection (spec section 4.2),
`x = longitude * 111320 * cos(latitude_in_radians)`, `y = latitude * 111320`;
the implementing code is not part of the sources provided. -/
def project (cosd : ℚ → ℚ) (lat lng : ℚ) : ℚ × ℚ :=
  (lng * 111320 * cosd lat, lat * 111320)

/-- Modelled from the spec: the inverse projection used for intersection
results (spec section 4.3 step 5), which divides by `111320` and by
`111320 * cos(avgLat)`; the implementing code is not part of the sources
provided. -/
def unproject (cosd : ℚ → ℚ) (avgLat x y : ℚ) : Point :=
  ⟨y / 111320, x / (111320 * cosd avgLat)⟩

/-- Modelled from the spec: the Euclidean distance `d` between the two
projected centers (spec section 4.3 step 2), each center projected with its
own latitude's cosine factor (step 1); the implementing code is not part of
the sources provided. -/
def projDist (cosd sq : ℚ → ℚ) (c1 c2 : CircleData) : ℚ :=
  sq (((project cosd c2.lat c2.lng).1 - (project cosd c1.lat c1.lng).1) ^ 2
    + ((project cosd c2.lat c2.lng).2 - (project cosd c1.lat c1.lng).2) ^ 2)

/-- Modelled from the spec: `a = (r1² - r2² + d²) / (2d)`, the distance from
circle 1's center to the chord's midpoint (spec section 4.3 step 4); the
implementing code is not part of the sources provided. -/
def chordDist (cosd sq : ℚ → ℚ) (c1 c2 : CircleData) : ℚ :=
  (radiusMeters c1 ^ 2 - radiusMeters c2 ^ 2 + projDist cosd sq c1 c2 ^ 2)
    / (2 * projDist cosd sq c1 c2)

/-- Modelled from the spec: `h = sqrt(r1² - a²)`, the half-chord length
(spec section 4.3 step 4); the implementing code is not part of the sources
provided. -/
def halfChord (cosd sq : ℚ → ℚ) (c1 c2 : CircleData) : ℚ :=
  sq (radiusMeters c1 ^ 2 - chordDist cosd sq c1 c2 ^ 2)

/-- Modelled from the spec: the two intersection points of the
non-degenerate branch (spec section 4.3 steps 4-5), the chord midpoint
offset by `±h` perpendicular to the center-to-center line and de-projected
with the average latitude; the implementing code is not part of the sources
provided. -/
def intersectPoints (cosd sq : ℚ → ℚ) (c1 c2 : CircleData) : List Point :=
  let x1 := (project cosd c1.lat c1.lng).1
  let y1 := (project cosd c1.lat c1.lng).2
  let dx := (project cosd c2.lat c2.lng).1 - x1
  let dy := (project cosd c2.lat c2.lng).2 - y1
  let d := projDist cosd sq c1 c2
  let a := chordDist cosd sq c1 c2
  let h := halfChord cosd sq c1 c2
  let px := x1 + a / d * dx
  let py := y1 + a / d * dy
  let avgLat := (c1.lat + c2.lat) / 2
  [unproject cosd avgLat (px + h * dy / d) (py - h * dx / d),
   unproject cosd avgLat (px - h * dy / d) (py + h * dx / d)]

/-- Modelled from the spec: `intersect(circleA, circleB)` (spec sections 4.3
and 6), returning an empty list in the degenerate cases `d > r1+r2`,
`d < |r1-r2|`, `d == 0` and the two constructed points otherwise; the
implementing code is not part of the sources provided. -/
def intersect (cosd sq : ℚ → ℚ) (c1 c2 : CircleData) : List Point :=
  if projDist cosd sq c1 c2 > radiusMeters c1 + radiusMeters c2
      ∨ projDist cosd sq c1 c2 < |radiusMeters c1 - radiusMeters c2|
      ∨ projDist cosd sq c1 c2 = 0
  then []
  else intersectPoints cosd sq c1 c2

/-- C1: whenever the projected center distance `d` satisfies `d > r1 + r2`,
or `d < |r1 - r2|`, or `d = 0` (radii in meters), `intersect` returns the
empty list of points. -/
theorem intersect_degenerate_empty (cosd sq : ℚ → ℚ) (c1 c2 : CircleData)
    (h : projDist cosd sq c1 c2 > radiusMeters c1 + radiusMeters c2
      ∨ projDist cosd sq c1 c2 < |radiusMeters c1 - radiusMeters c2|
      ∨ projDist cosd sq c1 c2 = 0) :
    intersect cosd sq c1 c2 = [] := by
  unfold intersect
  rw [if_pos h]

/-- Witness for C1 at a concrete pair of circles whose projected distance
exceeds the sum of the radii. -/
theorem intersect_degenerate_empty_witness :
    (projDist (fun _ => 1) (fun _ => 111320) ⟨"a", 0, 0, 5, .miles⟩ ⟨"b", 0, 1, 5, .miles⟩
        > radiusMeters ⟨"a", 0, 0, 5, .miles⟩ + radiusMeters ⟨"b", 0, 1, 5, .miles⟩
      ∨ projDist (fun _ => 1) (fun _ => 111320) ⟨"a", 0, 0, 5, .miles⟩ ⟨"b", 0, 1, 5, .miles⟩
        < |radiusMeters ⟨"a", 0, 0, 5, .miles⟩ - radiusMeters ⟨"b", 0, 1, 5, .miles⟩|
      ∨ projDist (fun _ => 1) (fun _ => 111320) ⟨"a", 0, 0, 5, .miles⟩ ⟨"b", 0, 1, 5, .miles⟩ = 0)
    ∧ intersect (fun _ => 1) (fun _ => 111320) ⟨"a", 0, 0, 5, .miles⟩ ⟨"b", 0, 1, 5, .miles⟩ = [] :=
  ⟨Or.inl (by norm_num [projDist, radiusMeters, toMeters, project]),
    intersect_degenerate_empty _ _ _ _
      (Or.inl (by norm_num [projDist, radiusMeters, toMeters, project]))⟩

lemma intersectPoints_length (cosd sq : ℚ → ℚ) (c1 c2 : CircleData) :
    (intersectPoints cosd sq c1 c2).length = 2 := rfl

lemma intersectPoints_of_halfChord_zero (cosd sq : ℚ → ℚ) (c1 c2 : CircleData)
    (hh : halfChord cosd sq c1 c2 = 0) :
    ∃ p, intersectPoints cosd sq c1 c2 = [p, p] := by
  refine ⟨unproject cosd ((c1.lat + c2.lat) / 2)
    ((project cosd c1.lat c1.lng).1
      + chordDist cosd sq c1 c2 / projDist cosd sq c1 c2
        * ((project cosd c2.lat c2.lng).1 - (project cosd c1.lat c1.lng).1))
    ((project cosd c1.lat c1.lng).2
      + chordDist cosd sq c1 c2 / projDist cosd sq c1 c2
        * ((project cosd c2.lat c2.lng).2 - (project cosd c1.lat c1.lng).2)), ?_⟩
  simp only [intersectPoints, hh, zero_mul, zero_div, add_zero, sub_zero]

lemma abs_sub_le_add (r1 r2 : ℚ) (h1 : 0 < r1) (h2 : 0 < r2) : |r1 - r2| ≤ r1 + r2 := by
  rw [abs_sub_le_iff]
  constructor <;> linarith

lemma tangent_sq_zero (cosd sq : ℚ → ℚ) (c1 c2 : CircleData)
    (h1 : 0 < radiusMeters c1) (h2 : 0 < radiusMeters c2)
    (hne : projDist cosd sq c1 c2 ≠ 0)
    (htan : projDist cosd sq c1 c2 = radiusMeters c1 + radiusMeters c2
      ∨ projDist cosd sq c1 c2 = |radiusMeters c1 - radiusMeters c2|) :
    radiusMeters c1 ^ 2 - chordDist cosd sq c1 c2 ^ 2 = 0 := by
  rcases htan with hd | hd
  · rw [chordDist, hd]
    have hsum : radiusMeters c1 + radiusMeters c2 ≠ 0 := by positivity
    field_simp
    ring
  · have habs : |radiusMeters c1 - radiusMeters c2| ≠ 0 := hd ▸ hne
    have ht : radiusMeters c1 - radiusMeters c2 ≠ 0 := abs_ne_zero.mp habs
    have hsq : |radiusMeters c1 - radiusMeters c2| ^ 2
        = (radiusMeters c1 - radiusMeters c2) ^ 2 := sq_abs _
    rw [chordDist, hd, div_pow, mul_pow, hsq]
    have ht2 : (radiusMeters c1 - radiusMeters c2) ^ 2 ≠ 0 := pow_ne_zero _ ht
    field_simp
    ring

lemma intersect_not_degenerate (cosd sq : ℚ → ℚ) (c1 c2 : CircleData)
    (h1 : 0 < radiusMeters c1) (h2 : 0 < radiusMeters c2)
    (hne : projDist cosd sq c1 c2 ≠ 0)
    (htan : projDist cosd sq c1 c2 = radiusMeters c1 + radiusMeters c2
      ∨ projDist cosd sq c1 c2 = |radiusMeters c1 - radiusMeters c2|) :
    ¬ (projDist cosd sq c1 c2 > radiusMeters c1 + radiusMeters c2
      ∨ projDist cosd sq c1 c2 < |radiusMeters c1 - radiusMeters c2|
      ∨ projDist cosd sq c1 c2 = 0) := by
  have habs := abs_sub_le_add (radiusMeters c1) (radiusMeters c2) h1 h2
  rcases htan with hd | hd <;>
    rintro (hg | hg | hg) <;>
    first
      | exact hne hg
      | (rw [hd] at hg; linarith)

/-- C2: `intersect` always returns a list of exactly 0 or exactly 2 points,
never exactly 1; in the tangent cases `d = r1 + r2` and `d = |r1 - r2|`
(with positive radii, a nonzero projected distance, and a square root
satisfying `sqrt 0 = 0`), it returns two coincident points rather than one
deduplicated point. -/
theorem intersect_zero_or_two (cosd sq : ℚ → ℚ) (c1 c2 : CircleData) :
    ((intersect cosd sq c1 c2).length = 0 ∨ (intersect cosd sq c1 c2).length = 2)
    ∧ (sq 0 = 0 → 0 < radiusMeters c1 → 0 < radiusMeters c2 →
        projDist cosd sq c1 c2 ≠ 0 →
        (projDist cosd sq c1 c2 = radiusMeters c1 + radiusMeters c2
          ∨ projDist cosd sq c1 c2 = |radiusMeters c1 - radiusMeters c2|) →
        ∃ p, intersect cosd sq c1 c2 = [p, p]) := by
  constructor
  · unfold intersect
    split
    · exact Or.inl rfl
    · exact Or.inr (intersectPoints_length cosd sq c1 c2)
  · intro hs h1 h2 hne htan
    have hguard := intersect_not_degenerate cosd sq c1 c2 h1 h2 hne htan
    have hkey := tangent_sq_zero cosd sq c1 c2 h1 h2 hne htan
    have hh : halfChord cosd sq c1 c2 = 0 := by rw [halfChord, hkey, hs]
    have hI : intersect cosd sq c1 c2 = intersectPoints cosd sq c1 c2 := by
      unfold intersect
      rw [if_neg hguard]
    rw [hI]
    exact intersectPoints_of_halfChord_zero cosd sq c1 c2 hh

/-- Witness for C2 at a concrete externally tangent pair:
two circles at latitude 0 with radii 2 km and 1 km whose projected centers
are exactly 3000 m apart. -/
theorem intersect_zero_or_two_witness :
    ((intersect (fun _ => 1) (fun x => if x = 9000000 then 3000 else 0)
        ⟨"a", 0, 0, 2, .km⟩ ⟨"b", 0, 3000 / 111320, 1, .km⟩).length = 0
      ∨ (intersect (fun _ => 1) (fun x => if x = 9000000 then 3000 else 0)
          ⟨"a", 0, 0, 2, .km⟩ ⟨"b", 0, 3000 / 111320, 1, .km⟩).length = 2)
    ∧ (∃ p, intersect (fun _ => 1) (fun x => if x = 9000000 then 3000 else 0)
        ⟨"a", 0, 0, 2, .km⟩ ⟨"b", 0, 3000 / 111320, 1, .km⟩ = [p, p]) :=
  ⟨(intersect_zero_or_two _ _ _ _).1,
    (intersect_zero_or_two _ _ _ _).2
      (by norm_num)
      (by norm_num [radiusMeters, toMeters])
      (by norm_num [radiusMeters, toMeters])
      (by norm_num [projDist, project])
      (Or.inl (by norm_num [projDist, project, radiusMeters, toMeters]))⟩

/-- An axis-aligned latitude/longitude box, modelling `L.LatLngBounds`. -/
structure Box where
  minLat : ℚ
  maxLat : ℚ
  minLng : ℚ
  maxLng : ℚ
deriving DecidableEq, Repr

/-- The per-circle bounding box from `AutoFitAllBounds` in `src/App.tsx`:
`latDelta = radiusInMeters / 111320`,
`lngDelta = radiusInMeters / (111320 * Math.cos(circle.lat * Math.PI / 180))`,
corners `(lat ∓ latDelta, lng ∓ lngDelta)`. -/
def circleBox (cosd : ℚ → ℚ) (c : CircleData) : Box :=
  let latDelta := radiusMeters c / 111320
  let lngDelta := radiusMeters c / (111320 * cosd c.lat)
  ⟨c.lat - latDelta, c.lat + latDelta, c.lng - lngDelta, c.lng + lngDelta⟩

/-- `L.LatLngBounds.extend` on two boxes: componentwise min of the minima
and max of the maxima. -/
def boxUnion (b1 b2 : Box) : Box :=
  ⟨min b1.minLat b2.minLat, max b1.maxLat b2.maxLat,
   min b1.minLng b2.minLng, max b1.maxLng b2.maxLng⟩

/-- The combined bounds of `AutoFitAllBounds` in `src/App.tsx`: the boxes of
all circles folded together with `extend`; `none` when the circle list is
empty (the code returns early without fitting). -/
def boundingRegion (cosd : ℚ → ℚ) (cs : List CircleData) : Option Box :=
  match cs.map (circleBox cosd) with
  | [] => none
  | b :: bs => some (bs.foldl boxUnion b)

/-- The effect of `AutoFitAllBounds` on the map view, modelled as the
currently fitted bounds: with an empty circle list the code returns before
calling `map.fitBounds`, leaving the previous view; otherwise the combined
bounds are fitted. -/
def autoFitAllBounds (cosd : ℚ → ℚ) (cs : List CircleData) (prev : Option Box) :
    Option Box :=
  match boundingRegion cosd cs with
  | none => prev
  | some b => some b

/-- C4: for the empty circle list no bounding region is produced
(`boundingRegion [] = none`) and the caller's previous view is left
unchanged. -/
theorem boundingRegion_nil (cosd : ℚ → ℚ) :
    boundingRegion cosd [] = none
    ∧ ∀ prev, autoFitAllBounds cosd [] prev = prev :=
  ⟨rfl, fun _ => rfl⟩

/-- C6: conversion to meters multiplies by 1609.34 for miles and by 1000
otherwise. -/
theorem toMeters_spec (r : ℚ) (h : 0 < r) :
    toMeters r Unit.miles = r * 1609.34 ∧ toMeters r Unit.km = r * 1000 :=
  ⟨rfl, rfl⟩

/-- Witness for C6 at radius 1: `toMeters 1 miles = 1609.34` and
`toMeters 1 km = 1000`. -/
theorem toMeters_spec_witness :
    (0 : ℚ) < 1 ∧ toMeters 1 Unit.miles = 1609.34 ∧ toMeters 1 Unit.km = 1000 :=
  ⟨by norm_num,
    ((toMeters_spec 1 (by norm_num)).1).trans (one_mul _),
    ((toMeters_spec 1 (by norm_num)).2).trans (one_mul _)⟩

/-- C5 counterexample: for a single circle of radius 1 km at the origin the
bounding box is `2 * radiusMeters / 111320` degrees tall, not
`radiusMeters / 111320` degrees tall as claimed. -/
theorem boundingRegion_single_height_counterexample :
    (boundingRegion (fun _ => 1) [⟨"a", 0, 0, 1, .km⟩]).map
        (fun b => b.maxLat - b.minLat)
      ≠ some (toMeters 1 Unit.km / 111320) := by
  norm_num [boundingRegion, circleBox, boxUnion, radiusMeters, toMeters]

/-- C5 (amended): for a single circle the bounding region is the box with
corners `centerLat ± radiusMeters/111320` and
`centerLng ± radiusMeters/(111320*cos(centerLat))`; it is therefore centered
on the circle's center and `2 * radiusMeters/111320` degrees tall in
latitude (half-height `radiusMeters/111320`), with longitude half-width
`radiusMeters/(111320*cos(centerLat))`. -/
theorem boundingRegion_single (cosd : ℚ → ℚ) (c : CircleData) :
    boundingRegion cosd [c] = some (circleBox cosd c)
    ∧ (circleBox cosd c).minLat = c.lat - radiusMeters c / 111320
    ∧ (circleBox cosd c).maxLat = c.lat + radiusMeters c / 111320
    ∧ (circleBox cosd c).minLng = c.lng - radiusMeters c / (111320 * cosd c.lat)
    ∧ (circleBox cosd c).maxLng = c.lng + radiusMeters c / (111320 * cosd c.lat)
    ∧ (circleBox cosd c).maxLat - (circleBox cosd c).minLat
        = 2 * (radiusMeters c / 111320)
    ∧ ((circleBox cosd c).minLat + (circleBox cosd c).maxLat) / 2 = c.lat := by
  refine ⟨rfl, rfl, rfl, rfl, rfl, ?_, ?_⟩
  · simp only [circleBox]
    ring
  · simp only [circleBox]
    ring

/-- `b1` lies inside `b2`. -/
def boxSubset (b1 b2 : Box) : Prop :=
  b2.minLat ≤ b1.minLat ∧ b1.maxLat ≤ b2.maxLat
    ∧ b2.minLng ≤ b1.minLng ∧ b1.maxLng ≤ b2.maxLng

/-- The point `p` lies inside the box `b`. -/
def pointInBox (p : Point) (b : Box) : Prop :=
  b.minLat ≤ p.lat ∧ p.lat ≤ b.maxLat ∧ b.minLng ≤ p.lng ∧ p.lng ≤ b.maxLng

/-- `L.LatLngBounds.extend` on a box and a point. -/
def extendPoint (b : Box) (p : Point) : Box :=
  ⟨min b.minLat p.lat, max b.maxLat p.lat, min b.minLng p.lng, max b.maxLng p.lng⟩

/-- All unordered pairs of elements of a list, each pair taken once with the
earlier element first; for N circles these are the O(N²) pairs of spec
section 4.3. -/
def pairs : List α → List (α × α)
  | [] => []
  | x :: xs => xs.map (fun y => (x, y)) ++ pairs xs

/-- Modelled from the spec: the intersection points of every circle pair
(spec sections 4.3 and 4.4, "every intersection point from 4.3 across all
circle pairs"); the implementing code is not part of the sources provided. -/
def allIntersections (cosd sq : ℚ → ℚ) (cs : List CircleData) : List Point :=
  ((pairs cs).map (fun q => intersect cosd sq q.1 q.2)).flatten

/-- Modelled from the spec: the bounding region of spec section 4.4, the
union of every circle's box extended to also cover every intersection point
of every circle pair; the code in `src/App.tsx` only folds the circle boxes,
and the README-documented extension over intersection points is not part of
the sources provided. -/
def boundingRegionWithIntersections (cosd sq : ℚ → ℚ) (cs : List CircleData) :
    Option Box :=
  match boundingRegion cosd cs with
  | none => none
  | some b => some ((allIntersections cosd sq cs).foldl extendPoint b)

lemma boxSubset_refl (b : Box) : boxSubset b b :=
  ⟨le_refl _, le_refl _, le_refl _, le_refl _⟩

lemma boxSubset_trans {a b c : Box} (h1 : boxSubset a b) (h2 : boxSubset b c) :
    boxSubset a c := by
  obtain ⟨u1, u2, u3, u4⟩ := h1
  obtain ⟨v1, v2, v3, v4⟩ := h2
  exact ⟨le_trans v1 u1, le_trans u2 v2, le_trans v3 u3, le_trans u4 v4⟩

lemma left_subset_boxUnion (b1 b2 : Box) : boxSubset b1 (boxUnion b1 b2) :=
  ⟨min_le_left _ _, le_max_left _ _, min_le_left _ _, le_max_left _ _⟩

lemma right_subset_boxUnion (b1 b2 : Box) : boxSubset b2 (boxUnion b1 b2) :=
  ⟨min_le_right _ _, le_max_right _ _, min_le_right _ _, le_max_right _ _⟩

lemma boxUnion_subset {b1 b2 B : Box} (h1 : boxSubset b1 B) (h2 : boxSubset b2 B) :
    boxSubset (boxUnion b1 b2) B := by
  obtain ⟨u1, u2, u3, u4⟩ := h1
  obtain ⟨v1, v2, v3, v4⟩ := h2
  exact ⟨le_min u1 v1, max_le u2 v2, le_min u3 v3, max_le u4 v4⟩

lemma subset_foldl_boxUnion (bs : List Box) (b : Box) :
    boxSubset b (bs.foldl boxUnion b) := by
  induction bs generalizing b with
  | nil => exact boxSubset_refl b
  | cons x xs ih =>
    exact boxSubset_trans (left_subset_boxUnion b x) (ih (boxUnion b x))

lemma mem_subset_foldl_boxUnion {x : Box} (bs : List Box) (b : Box) (hx : x ∈ bs) :
    boxSubset x (bs.foldl boxUnion b) := by
  induction bs generalizing b with
  | nil => cases hx
  | cons y ys ih =>
    rcases List.mem_cons.mp hx with h | h
    · subst h
      exact boxSubset_trans (right_subset_boxUnion b x) (subset_foldl_boxUnion ys _)
    · exact ih _ h

lemma foldl_boxUnion_subset {B : Box} (bs : List Box) (b : Box)
    (hb : boxSubset b B) (hbs : ∀ x ∈ bs, boxSubset x B) :
    boxSubset (bs.foldl boxUnion b) B := by
  induction bs generalizing b with
  | nil => exact hb
  | cons y ys ih =>
    exact ih _ (boxUnion_subset hb (hbs y (List.mem_cons_self y ys)))
      (fun x hx => hbs x (List.mem_cons_of_mem _ hx))

lemma subset_extendPoint (b : Box) (p : Point) : boxSubset b (extendPoint b p) :=
  ⟨min_le_left _ _, le_max_left _ _, min_le_left _ _, le_max_left _ _⟩

lemma pointInBox_extendPoint (b : Box) (p : Point) : pointInBox p (extendPoint b p) :=
  ⟨min_le_right _ _, le_max_right _ _, min_le_right _ _, le_max_right _ _⟩

lemma extendPoint_subset {b B : Box} {p : Point} (hb : boxSubset b B)
    (hp : pointInBox p B) : boxSubset (extendPoint b p) B := by
  obtain ⟨u1, u2, u3, u4⟩ := hb
  obtain ⟨v1, v2, v3, v4⟩ := hp
  exact ⟨le_min u1 v1, max_le u2 v2, le_min u3 v3, max_le u4 v4⟩

lemma pointInBox_mono {p : Point} {b B : Box} (h : boxSubset b B)
    (hp : pointInBox p b) : pointInBox p B := by
  obtain ⟨u1, u2, u3, u4⟩ := h
  obtain ⟨v1, v2, v3, v4⟩ := hp
  exact ⟨le_trans u1 v1, le_trans v2 u2, le_trans u3 v3, le_trans v4 u4⟩

lemma subset_foldl_extendPoint (ps : List Point) (b : Box) :
    boxSubset b (ps.foldl extendPoint b) := by
  induction ps generalizing b with
  | nil => exact boxSubset_refl b
  | cons q qs ih =>
    exact boxSubset_trans (subset_extendPoint b q) (ih (extendPoint b q))

lemma mem_foldl_extendPoint {p : Point} (ps : List Point) (b : Box) (hp : p ∈ ps) :
    pointInBox p (ps.foldl extendPoint b) := by
  induction ps generalizing b with
  | nil => cases hp
  | cons q qs ih =>
    rcases List.mem_cons.mp hp with h | h
    · subst h
      exact pointInBox_mono (subset_foldl_extendPoint qs _) (pointInBox_extendPoint b p)
    · exact ih _ h

lemma foldl_extendPoint_subset {B : Box} (ps : List Point) (b : Box)
    (hb : boxSubset b B) (hps : ∀ p ∈ ps, pointInBox p B) :
    boxSubset (ps.foldl extendPoint b) B := by
  induction ps generalizing b with
  | nil => exact hb
  | cons q qs ih =>
    exact ih _ (extendPoint_subset hb (hps q (List.mem_cons_self q qs)))
      (fun p hp => hps p (List.mem_cons_of_mem _ hp))

/-- C3: for every non-empty circle list the bounding region extended over
the intersection points exists, contains every individual circle's box and
every computed intersection point of every circle pair, and is the least
such box (it is the componentwise min/max union of the circle boxes and
intersection points). -/
theorem boundingRegionWithIntersections_spec (cosd sq : ℚ → ℚ)
    (cs : List CircleData) (hne : cs ≠ []) :
    ∃ b, boundingRegionWithIntersections cosd sq cs = some b
      ∧ (∀ c ∈ cs, boxSubset (circleBox cosd c) b)
      ∧ (∀ p ∈ allIntersections cosd sq cs, pointInBox p b)
      ∧ (∀ B, (∀ c ∈ cs, boxSubset (circleBox cosd c) B) →
          (∀ p ∈ allIntersections cosd sq cs, pointInBox p B) → boxSubset b B) := by
  obtain ⟨c0, rest, rfl⟩ := List.exists_cons_of_ne_nil hne
  have hbr : boundingRegion cosd (c0 :: rest)
      = some ((rest.map (circleBox cosd)).foldl boxUnion (circleBox cosd c0)) := rfl
  refine ⟨(allIntersections cosd sq (c0 :: rest)).foldl extendPoint
    ((rest.map (circleBox cosd)).foldl boxUnion (circleBox cosd c0)), ?_, ?_, ?_, ?_⟩
  · simp [boundingRegionWithIntersections, hbr]
  · intro c hc
    have hsub : boxSubset (circleBox cosd c)
        ((rest.map (circleBox cosd)).foldl boxUnion (circleBox cosd c0)) := by
      rcases List.mem_cons.mp hc with h | h
      · subst h
        exact subset_foldl_boxUnion _ _
      · exact mem_subset_foldl_boxUnion _ _ (List.mem_map_of_mem _ h)
    exact boxSubset_trans hsub (subset_foldl_extendPoint _ _)
  · intro p hp
    exact mem_foldl_extendPoint _ _ hp
  · intro B hB hPB
    refine foldl_extendPoint_subset _ _ ?_ hPB
    refine foldl_boxUnion_subset _ _ (hB c0 (List.mem_cons_self _ _)) ?_
    intro x hx
    obtain ⟨c, hc, rfl⟩ := List.mem_map.mp hx
    exact hB c (List.mem_cons_of_mem _ hc)

/-- Witness for C3 at a concrete two-circle list. -/
theorem boundingRegionWithIntersections_spec_witness :
    ∃ b, boundingRegionWithIntersections (fun _ => 1) (fun _ => 0)
        [⟨"a", 0, 0, 5, .miles⟩, ⟨"b", 0, 1, 5, .miles⟩] = some b
      ∧ (∀ c ∈ [CircleData.mk "a" 0 0 5 .miles, CircleData.mk "b" 0 1 5 .miles],
          boxSubset (circleBox (fun _ => 1) c) b)
      ∧ (∀ p ∈ allIntersections (fun _ => 1) (fun _ => 0)
            [⟨"a", 0, 0, 5, .miles⟩, ⟨"b", 0, 1, 5, .miles⟩], pointInBox p b)
      ∧ (∀ B, (∀ c ∈ [CircleData.mk "a" 0 0 5 .miles, CircleData.mk "b" 0 1 5 .miles],
            boxSubset (circleBox (fun _ => 1) c) B) →
          (∀ p ∈ allIntersections (fun _ => 1) (fun _ => 0)
              [⟨"a", 0, 0, 5, .miles⟩, ⟨"b", 0, 1, 5, .miles⟩], pointInBox p B) →
          boxSubset b B) :=
  boundingRegionWithIntersections_spec (fun _ => 1) (fun _ => 0)
    [⟨"a", 0, 0, 5, .miles⟩, ⟨"b", 0, 1, 5, .miles⟩] (by simp)

/-- C8: the engine is deterministic — two invocations of `intersect` or of
the bounding-region computations on identical inputs yield identical
outputs; the functions take values in and return values out with no
retained state. -/
theorem engine_deterministic (cosd sq : ℚ → ℚ) (a1 a2 b1 b2 : CircleData)
    (cs1 cs2 : List CircleData) (hab : a1 = b1 ∧ a2 = b2) (hcs : cs1 = cs2) :
    intersect cosd sq a1 a2 = intersect cosd sq b1 b2
    ∧ allIntersections cosd sq cs1 = allIntersections cosd sq cs2
    ∧ boundingRegion cosd cs1 = boundingRegion cosd cs2
    ∧ boundingRegionWithIntersections cosd sq cs1
        = boundingRegionWithIntersections cosd sq cs2 := by
  obtain ⟨h1, h2⟩ := hab
  subst h1
  subst h2
  subst hcs
  exact ⟨rfl, rfl, rfl, rfl⟩

/-- Witness for C8 at concrete inputs. -/
theorem engine_deterministic_witness :
    intersect (fun _ => 1) (fun _ => 0) ⟨"a", 0, 0, 5, .miles⟩ ⟨"b", 0, 1, 5, .miles⟩
        = intersect (fun _ => 1) (fun _ => 0) ⟨"a", 0, 0, 5, .miles⟩ ⟨"b", 0, 1, 5, .miles⟩
    ∧ allIntersections (fun _ => 1) (fun _ => 0) [⟨"a", 0, 0, 5, .miles⟩]
        = allIntersections (fun _ => 1) (fun _ => 0) [⟨"a", 0, 0, 5, .miles⟩]
    ∧ boundingRegion (fun _ => 1) [⟨"a", 0, 0, 5, .miles⟩]
        = boundingRegion (fun _ => 1) [⟨"a", 0, 0, 5, .miles⟩]
    ∧ boundingRegionWithIntersections (fun _ => 1) (fun _ => 0) [⟨"a", 0, 0, 5, .miles⟩]
        = boundingRegionWithIntersections (fun _ => 1) (fun _ => 0) [⟨"a", 0, 0, 5, .miles⟩] :=
  engine_deterministic (fun _ => 1) (fun _ => 0) _ _ _ _ _ _ ⟨rfl, rfl⟩ rfl

/-- The shape of the `Partial<CircleData>` updates actually passed to
`updateCircle` in `src/App.tsx`: a radius edit, a unit edit, or both fields
absent. -/
structure CircleUpdate where
  radius : Option ℚ
  unit : Option Unit
deriving DecidableEq, Repr

/-- The object spread `{ ...circle, ...updates }` from `src/App.tsx` for the
update shapes above. -/
def applyUpdate (c : CircleData) (u : CircleUpdate) : CircleData :=
  { c with radius := u.radius.getD c.radius, unit := u.unit.getD c.unit }

/-- `updateCircle` from `src/App.tsx`:
`circles.map(circle => circle.id === id ? { ...circle, ...updates } : circle)`. -/
def updateCircle (cs : List CircleData) (id : String) (u : CircleUpdate) :
    List CircleData :=
  cs.map fun c => if c.id = id then applyUpdate c u else c

/-- C9: a radius/unit update with a given id changes neither the updated
circle's center and identifier nor any circle with a different id; centers
are never modified. -/
theorem updateCircle_frame (cs : List CircleData) (id : String) (u : CircleUpdate) :
    List.Forall₂ (fun c c' => c'.id = c.id ∧ c'.lat = c.lat ∧ c'.lng = c.lng
      ∧ (c.id ≠ id → c' = c)) cs (updateCircle cs id u) := by
  induction cs with
  | nil => exact List.Forall₂.nil
  | cons c cs ih =>
    refine List.Forall₂.cons ?_ ih
    show ((if c.id = id then applyUpdate c u else c).id = c.id
      ∧ (if c.id = id then applyUpdate c u else c).lat = c.lat
      ∧ (if c.id = id then applyUpdate c u else c).lng = c.lng
      ∧ (c.id ≠ id → (if c.id = id then applyUpdate c u else c) = c))
    by_cases h : c.id = id
    · rw [if_pos h]
      exact ⟨rfl, rfl, rfl, fun hn => absurd h hn⟩
    · rw [if_neg h]
      exact ⟨rfl, rfl, rfl, fun _ => rfl⟩

/-- `addCircle` from `src/App.tsx`: `setCircles([...circles, newCircle])`
with `newCircle = { id, lat, lng, radius: 5, unit: 'miles' }` (the id is the
`Date.now()` timestamp string, passed here as a parameter). -/
def addCircle (cs : List CircleData) (id : String) (lat lng : ℚ) : List CircleData :=
  cs ++ [{ id := id, lat := lat, lng := lng, radius := 5, unit := .miles }]

/-- C10: `addCircle` appends exactly one circle, with default radius 5 and
default unit miles, at the end of the list, leaving all previously existing
circles unchanged and in their original order. -/
theorem addCircle_spec (cs : List CircleData) (id : String) (lat lng : ℚ) :
    (addCircle cs id lat lng).length = cs.length + 1
    ∧ (addCircle cs id lat lng).take cs.length = cs
    ∧ (addCircle cs id lat lng).getLast?
        = some { id := id, lat := lat, lng := lng, radius := 5, unit := Unit.miles } := by
  refine ⟨?_, ?_, ?_⟩
  · simp [addCircle]
  · simp [addCircle, List.take_left]
  · simp [addCircle]

/-- The radius sanitisation applied on edit in `src/App.tsx`,
`parseFloat(e.target.value) || 1`: a `NaN` parse (`none`) and a parse of `0`
are falsy and replaced by 1; every other parsed value is kept as is. -/
def sanitizeRadius (parsed : Option ℚ) : ℚ :=
  match parsed with
  | none => 1
  | some v => if v = 0 then 1 else v

/-- The radius-edit path of `src/App.tsx`:
`updateCircle(circle.id, { radius: parseFloat(e.target.value) || 1 })`. -/
def editRadius (cs : List CircleData) (id : String) (parsed : Option ℚ) :
    List CircleData :=
  updateCircle cs id { radius := some (sanitizeRadius parsed), unit := none }

/-- C7 (code bug): an edit whose text parses to the negative number -5 is
stored as radius -5, violating the invariant that every stored radius stays
strictly positive — `parseFloat(...) || 1` replaces only the falsy `NaN`
and `0`, and the input's `min="1"` is not enforced on typed text. -/
theorem editRadius_negative_bug :
    (editRadius [⟨"a", 0, 0, 5, .miles⟩] "a" (some (-5))).map CircleData.radius = [-5]
    ∧ ¬ (∀ c ∈ editRadius [⟨"a", 0, 0, 5, .miles⟩] "a" (some (-5)), 0 < c.radius) := by
  have h1 : editRadius [⟨"a", 0, 0, 5, .miles⟩] "a" (some (-5))
      = [⟨"a", 0, 0, -5, .miles⟩] := by
    norm_num [editRadius, updateCircle, applyUpdate, sanitizeRadius]
  constructor
  · rw [h1]
    rfl
  · rw [h1]
    intro h
    have hx := h ⟨"a", 0, 0, -5, .miles⟩ (List.mem_singleton_self _)
    norm_num at hx

end RadiusMap
